import Mathlib

/-!
Verification of the TCP segment codec of the `tcp-builder` repository.

The repository file `src/tcp/tcp.js` contains two concatenated versions of
the codec (an original and a lightly edited rewrite).  They agree everywhere
except in the reserved-bits mask used by `Decode` (`0x04` in the first
version, `0x0E` in the second); both versions are embedded below (`Decode`
and `DecodeV2`).  The option sub-codec (`processOptions` in the first
version, `parseOptions` in the second) and the length validator
(`checkMalformedLength` / `isInvalidOptionLength`) are semantically
identical between the two versions (the first contains one duplicated,
therefore dead, check), so they are embedded once.

Byte buffers are modelled as `List Nat` whose entries are byte values;
machine arithmetic is explicit (`% 65536`, `* 4096`, `|||`, `>>>`) as in the
JavaScript source.  Fallible operations (`Buffer.writeUIntNBE` range
throws, warn-and-return-empty paths) are modelled with `Except`.
-/

deriving instance DecidableEq for Except

/-- TCP flag record, mirroring the `flags` object taken by `Encode`
(`{fin, syn, rst, psh, ack, urg, ece, cwr}`). -/
structure TcpFlags where
  fin : Bool
  syn : Bool
  rst : Bool
  psh : Bool
  ack : Bool
  urg : Bool
  ece : Bool
  cwr : Bool
deriving DecidableEq, Repr

/-- Parsed TCP option record as produced by `processOptions`
(src/tcp/tcp.js).  `EOL` and `NOP` records carry only `type` and `kind`
(`short`); every other option carries `type`, `kind`, `length` and the
`data` slice (`full`). -/
inductive OptRec where
  | short (type : String) (kind : Nat)
  | full (type : String) (kind : Nat) (length : Nat) (data : List Nat)
deriving DecidableEq, Repr

/-- Decoded TCP segment, mirroring the `output` object built by `Decode`
(src/tcp/tcp.js lines 112-185). -/
structure TcpSegment where
  sourcePort : Nat
  destinationPort : Nat
  sequenceNumber : Nat
  acknowledgmentNumber : Nat
  dataOffset : Nat
  flags : List String
  windowSize : Nat
  checksum : Nat
  urgentPointer : Nat
  options : List OptRec
  dataPayload : List Nat
deriving DecidableEq, Repr

/-- Failure modes of `Encode`: the invalid-address early return
(src/tcp/tcp.js line 41-44) and the `RangeError` thrown by
`Buffer.writeUInt16BE`/`writeUInt32BE` on an out-of-range value. -/
inductive EncodeError where
  | invalidAddress
  | valueOutOfRange
deriving DecidableEq, Repr

/-- Failure modes of `Decode`: the three warn-and-return-empty paths of
src/tcp/tcp.js lines 125-154 (packet shorter than the TCP header, non-zero
reserved bits, invalid data offset). -/
inductive DecodeError where
  | packetTooSmall
  | reservedBitsSet
  | invalidDataOffset
deriving DecidableEq, Repr

/-- `Buffer.readUInt8`: one byte at `off` (all uses in the embedded code are
in bounds after the length guard, so the out-of-bounds default is never
reached there). -/
def readUInt8 (buf : List Nat) (off : Nat) : Nat :=
  buf.getD off 0

/-- `Buffer.readUInt16BE`: big-endian 16-bit read at `off`. -/
def readUInt16BE (buf : List Nat) (off : Nat) : Nat :=
  readUInt8 buf off * 256 + readUInt8 buf (off + 1)

/-- `Buffer.readUInt32BE`: big-endian 32-bit read at `off`. -/
def readUInt32BE (buf : List Nat) (off : Nat) : Nat :=
  readUInt8 buf off * 16777216 + readUInt8 buf (off + 1) * 65536 +
    readUInt8 buf (off + 2) * 256 + readUInt8 buf (off + 3)

/-- The two bytes stored by `Buffer.writeUInt16BE value off` once the value
has passed the `0 ≤ value ≤ 65535` range check (the check itself is part of
`Encode` below). -/
def writeU16 (v : Nat) : List Nat :=
  [v / 256, v % 256]

/-- The four bytes stored by `Buffer.writeUInt32BE` after its range check. -/
def writeU32 (v : Nat) : List Nat :=
  [v / 16777216, v / 65536 % 256, v / 256 % 256, v % 256]

/-- The carry-folding loop of `onesComplementSum`
(src/tcp/test.js lines 805-807):
`while (sum > 0xFFFF) sum = (sum & 0xFFFF) + (sum >>> 16)`, with an explicit
fuel argument; each iteration strictly decreases `sum`, so `sum` itself is
enough fuel (`foldCarry`). -/
def foldCarryFuel : Nat → Nat → Nat
  | 0, sum => sum
  | fuel + 1, sum =>
    if sum > 65535 then foldCarryFuel fuel (sum % 65536 + sum / 65536) else sum

/-- The carry-folding loop run to completion. -/
def foldCarry (sum : Nat) : Nat :=
  foldCarryFuel sum sum

/-- Tail of `onesComplementSum` (src/tcp/test.js lines 782-811): the
accumulator `sum` sweeps the buffer two bytes at a time; an odd final byte
becomes the high byte of its word; the carry-fold loop runs after each
addition. -/
def ocsAux : List Nat → Nat → Nat
  | [], sum => sum
  | [b], sum => foldCarry (sum + b * 256)
  | b :: b2 :: rest, sum => ocsAux rest (foldCarry (sum + (b * 256 + b2)))

/-- `onesComplementSum(buf)` of src/tcp/test.js lines 782-811. -/
def onesComplementSum (buf : List Nat) : Nat :=
  ocsAux buf 0

/-- The Internet checksum as the source computes it: `(~sum) & 0xFFFF`
applied to `onesComplementSum` (src/tcp/test.js line 767, with the
JavaScript 32-bit `~` written as subtraction from `2^32 - 1`). -/
def checksum (buf : List Nat) : Nat :=
  (4294967295 - onesComplementSum buf) % 65536

/-- Reference word sum from the spec's words: "Sum successive 16-bit
big-endian words; for odd-length input, the final byte is treated as the
high byte of a word whose low byte is zero" (no folding during the sweep). -/
def sumWords16 (buf : List Nat) : Nat :=
  match buf with
  | [] => 0
  | [b] => b * 256
  | b :: b2 :: rest => (b * 256 + b2) + sumWords16 rest

/-- Reference checksum from the spec's words: fold the carries of the plain
word sum until it fits in 16 bits, then return its one's complement masked
to 16 bits.  Used only to compare against `checksum` (claim C2). -/
def checksumSpec (buf : List Nat) : Nat :=
  (4294967295 - foldCarry (sumWords16 buf)) % 65536

/-- `tcpCheckSum(srcIp, destIp, tcpBuffer)` of src/tcp/test.js lines
740-768 for 4-octet addresses: the 12-byte pseudo-header (source address,
destination address, zero byte, protocol byte 6, 16-bit big-endian segment
length) is prepended to the segment, and the one's-complement checksum of
the concatenation is returned.  The `writeUInt16BE` range throw for
segments longer than 65535 bytes is accounted for by the length guard
inside `Encode`. -/
def tcpCheckSum (srcIp destIp : List Nat) (tcpBuffer : List Nat) : Nat :=
  checksum (srcIp ++ destIp ++ [0, 6] ++ writeU16 tcpBuffer.length ++ tcpBuffer)

/-- The segment with bytes 16-17 (the TCP checksum field) replaced by
zero. -/
def zeroChecksumField (seg : List Nat) : List Nat :=
  seg.take 16 ++ [0, 0] ++ seg.drop 18

/-- Pseudo-header checksum following the spec's words for comparison with
`tcpCheckSum` (claim C3): "builds a 12-byte pseudo-header (addr, addr, zero
byte, protocol byte, 2-byte segment length) and returns
`checksum(pseudoHeader ++ segment-with-checksum-field-zeroed)`". -/
def pseudoHeaderChecksumSpec (srcAddr destAddr : List Nat) (protocolNumber : Nat)
    (segment : List Nat) : Nat :=
  checksum (srcAddr ++ destAddr ++ [0, protocolNumber] ++ writeU16 segment.length ++
    zeroChecksumField segment)

/-- `optPadding(buf)` of src/unnamed/part_001 lines 143-155: pad the
options with NOP (`0x01`) bytes until the length is a multiple of 4.  There
is no size check of any kind in the source. -/
def optPadding (buf : List Nat) : List Nat :=
  if buf.length % 4 = 0 then buf
  else buf ++ List.replicate (4 - buf.length % 4) 1

/-- Membership of `kind` in the `optionTypes` table of `processOptions`
(src/tcp/tcp.js lines 203-213): a truthy `optionTypes[kind]`. -/
def optionTypeKnown (kind : Nat) : Bool :=
  kind == 0 || kind == 1 || kind == 2 || kind == 3 || kind == 4 ||
    kind == 5 || kind == 8 || kind == 14 || kind == 15

/-- The `optionTypes[kind] || Unknown-kind` name used for parsed option
records (kinds 0 and 1 are handled before the table is consulted). -/
def optionTypeName (kind : Nat) : String :=
  match kind with
  | 2 => "MSS"
  | 3 => "WS"
  | 4 => "SACK-Permitted"
  | 5 => "SACK"
  | 8 => "Timestamps"
  | 14 => "AltChkSum"
  | 15 => "AltChkSumData"
  | k => "Unknown-" ++ toString k

/-- The `minLengths` table (src/tcp/tcp.js lines 217-225); `0` encodes a
missing (falsy) entry. -/
def minLengthOf (kind : Nat) : Nat :=
  match kind with
  | 2 => 4 | 3 => 3 | 4 => 2 | 5 => 10 | 8 => 10 | 14 => 3 | 15 => 2
  | _ => 0

/-- The `maxLengths` table (src/tcp/tcp.js lines 228-236); `0` encodes a
missing (falsy) entry. -/
def maxLengthOf (kind : Nat) : Nat :=
  match kind with
  | 2 => 4 | 3 => 3 | 4 => 2 | 5 => 34 | 8 => 10 | 14 => 3 | 15 => 40
  | _ => 0

/-- `checkMalformedLength` of src/tcp/tcp.js lines 301-345 (identical, up
to one duplicated check, to `isInvalidOptionLength` of lines 672-710).
`currentIndex`/`optionsArrayLength` enter only through
`currentIndex + length > optionsArrayLength`. -/
def checkMalformedLength (kind length currentIndex optionsArrayLength : Nat) : Bool :=
  (!optionTypeKnown kind && decide (length > 40)) ||
  decide (length < 2) ||
  (decide (minLengthOf kind ≠ 0) && decide (length < minLengthOf kind)) ||
  (decide (maxLengthOf kind ≠ 0) && decide (length > maxLengthOf kind)) ||
  decide (currentIndex + length > optionsArrayLength) ||
  (!optionTypeKnown kind && decide (length > 40)) ||
  (kind == 5 && decide ((length - 2) % 8 ≠ 0))

/-- One fuel unit per iteration of the `while (i < optionsArray.length)`
loop of `processOptions` (src/tcp/tcp.js lines 238-296), recursing on the
un-consumed suffix of the options buffer (the loop state `i` is the amount
already dropped, so `currentIndex + length > optionsArrayLength` becomes
`0 + length > suffix length`).  Outer `none` means the fuel ran out; inner
`none` is the `return []` hard abort on a malformed option; `some []` with
remaining input is the warn-and-`break` on a missing length byte. -/
def processOptionsFuel : Nat → List Nat → Option (Option (List OptRec))
  | 0, _ => none
  | _ + 1, [] => some (some [])
  | fuel + 1, kind :: rest1 =>
    if kind = 0 then some (some [OptRec.short "EOL" 0])
    else if kind = 1 then
      (processOptionsFuel fuel rest1).map (Option.map (fun opts => OptRec.short "NOP" 1 :: opts))
    else
      match rest1 with
      | [] => some (some [])
      | length :: rest2 =>
        if checkMalformedLength kind length 0 (rest2.length + 2) then some none
        else
          (processOptionsFuel fuel ((kind :: length :: rest2).drop length)).map
            (Option.map (fun opts =>
              OptRec.full (optionTypeName kind) kind length (rest2.take (length - 2)) :: opts))

/-- `processOptions` of src/tcp/tcp.js lines 193-299 (semantically equal to
`parseOptions` of lines 602-666): run the loop with enough fuel; a
malformed option makes the whole call return `[]`. -/
def processOptions (optionsArray : List Nat) : List OptRec :=
  match processOptionsFuel (optionsArray.length + 1) optionsArray with
  | some (some opts) => opts
  | _ => []

/-- `processFlags` of src/tcp/tcp.js lines 187-191 (= `parseFlags` of lines
591-595): the 8-character binary string of the flag byte selects names from
`['CWR','ECE','URG','ACK','PSH','RST','SYN','FIN']`; character `index` of
the padded string is bit `7 - index` of the byte (bytes are < 256). -/
def processFlags (flagByte : Nat) : List String :=
  (List.filter (fun p => flagByte.testBit p.2)
    [("CWR", 7), ("ECE", 6), ("URG", 5), ("ACK", 4),
     ("PSH", 3), ("RST", 2), ("SYN", 1), ("FIN", 0)]).map Prod.fst

/-- The names of the set flags of a `TcpFlags` record, in the wire order
used by `processFlags`; introduced to state what "decode returns the
original flags" means. -/
def flagNames (f : TcpFlags) : List String :=
  (if f.cwr then ["CWR"] else []) ++ (if f.ece then ["ECE"] else []) ++
  (if f.urg then ["URG"] else []) ++ (if f.ack then ["ACK"] else []) ++
  (if f.psh then ["PSH"] else []) ++ (if f.rst then ["RST"] else []) ++
  (if f.syn then ["SYN"] else []) ++ (if f.fin then ["FIN"] else [])

/-- `isValidDataOffset` of src/tcp/tcp.js lines 347-363: header length
`dataOffset * 4` must lie in `[20, 60]` and fit inside the packet. -/
def isValidDataOffset (dataOffset packetLength : Nat) : Bool :=
  !(decide (dataOffset * 4 < 20) || decide (dataOffset * 4 > 60)) &&
    !decide (packetLength < dataOffset * 4)

/-- `isValidIP` of src/tcp/tcp.js lines 365-379, with the address already
split into its numeric octets: exactly 4 octets, each in `[0, 255]`
(negative values and `NaN` cannot arise in the `Nat` model). -/
def isValidIP (ip : List Nat) : Bool :=
  ip.length == 4 && !ip.any (fun n => decide (n > 255))

/-- The flag byte built by `Encode` (src/tcp/tcp.js lines 70-78) from the
`flags` record, one `|=` per flag. -/
def flagBits (flags : TcpFlags) : Nat :=
  (if flags.fin then 1 else 0) |||
  (if flags.syn then 2 else 0) |||
  (if flags.rst then 4 else 0) |||
  (if flags.psh then 8 else 0) |||
  (if flags.ack then 16 else 0) |||
  (if flags.urg then 32 else 0) |||
  (if flags.ece then 64 else 0) |||
  (if flags.cwr then 128 else 0)

/-- `Encode` of src/tcp/tcp.js lines 27-110.  The address check comes
first; every `writeUIntNBE` range check (including the segment-length write
inside `tcpCheckSum`) is collected into one `valueOutOfRange` guard — in
the source these throws happen at their individual write sites, but all of
them are reached before any value is returned, so the observable result is
the same.  On success the returned segment is the 20-byte header (with the
checksum written back at bytes 16-17), the padded options, and the
payload. -/
def Encode (srcIp destIp : List Nat) (srcPort destPort seqNumber ackNumber : Nat)
    (flags : TcpFlags) (windowSize urgentPointer : Nat)
    (options data : List Nat) : Except EncodeError (List Nat) :=
  if isValidIP srcIp && isValidIP destIp then
    let paddedOptions := optPadding options
    let dataOffset := (20 + paddedOptions.length) / 4
    let offsetAndReserved := dataOffset <<< 12
    let offsetAndFlags := offsetAndReserved ||| flagBits flags
    if srcPort ≤ 65535 ∧ destPort ≤ 65535 ∧ seqNumber ≤ 4294967295 ∧
        ackNumber ≤ 4294967295 ∧ offsetAndFlags ≤ 65535 ∧ windowSize ≤ 65535 ∧
        urgentPointer ≤ 65535 ∧ 20 + paddedOptions.length + data.length ≤ 65535 then
      let headerZeroCk := writeU16 srcPort ++ writeU16 destPort ++ writeU32 seqNumber ++
        writeU32 ackNumber ++ writeU16 offsetAndFlags ++ writeU16 windowSize ++
        writeU16 0 ++ writeU16 urgentPointer ++ paddedOptions
      let ck := tcpCheckSum srcIp destIp (headerZeroCk ++ data)
      Except.ok (writeU16 srcPort ++ writeU16 destPort ++ writeU32 seqNumber ++
        writeU32 ackNumber ++ writeU16 offsetAndFlags ++ writeU16 windowSize ++
        writeU16 ck ++ writeU16 urgentPointer ++ paddedOptions ++ data)
    else Except.error EncodeError.valueOutOfRange
  else Except.error EncodeError.invalidAddress

/-- `Decode` of src/tcp/tcp.js lines 112-185 (first version).  Its reserved
check is `dataOffsetAndReserved & 0x04` (line 145): only bit 2 of the low
nibble of byte 12 is tested. -/
def Decode (packet : List Nat) (skipIPHeader : Bool) : Except DecodeError TcpSegment :=
  let tcpStart := if skipIPHeader then 20 else 0
  if packet.length < tcpStart + 20 then Except.error DecodeError.packetTooSmall
  else
    let dataOffsetAndReserved := readUInt8 packet (tcpStart + 12)
    let dataOffset := dataOffsetAndReserved >>> 4 &&& 15
    let dataReserved := dataOffsetAndReserved &&& 4
    if dataReserved ≠ 0 then Except.error DecodeError.reservedBitsSet
    else if isValidDataOffset dataOffset (packet.length - tcpStart) then
      let headerLength := dataOffset * 4
      Except.ok
        { sourcePort := readUInt16BE packet (tcpStart + 0)
          destinationPort := readUInt16BE packet (tcpStart + 2)
          sequenceNumber := readUInt32BE packet (tcpStart + 4)
          acknowledgmentNumber := readUInt32BE packet (tcpStart + 8)
          dataOffset := dataOffset
          flags := processFlags (readUInt8 packet (tcpStart + 13))
          windowSize := readUInt16BE packet (tcpStart + 14)
          checksum := readUInt16BE packet (tcpStart + 16)
          urgentPointer := readUInt16BE packet (tcpStart + 18)
          options := if headerLength > 20 then
              processOptions ((packet.drop (tcpStart + 20)).take (headerLength - 20))
            else []
          dataPayload := packet.drop (tcpStart + headerLength) }
    else Except.error DecodeError.invalidDataOffset

/-- `Decode` of src/tcp/tcp.js lines 527-584 (second version).  Identical
to the first version except that the reserved check is
`dataOffsetByte & 0x0E` (line 552): bits 1-3 of the low nibble. -/
def DecodeV2 (packet : List Nat) (skipIPHeader : Bool) : Except DecodeError TcpSegment :=
  let tcpStart := if skipIPHeader then 20 else 0
  if packet.length < tcpStart + 20 then Except.error DecodeError.packetTooSmall
  else
    let dataOffsetByte := readUInt8 packet (tcpStart + 12)
    let dataOffset := dataOffsetByte >>> 4 &&& 15
    let reserved := dataOffsetByte &&& 14
    if reserved ≠ 0 then Except.error DecodeError.reservedBitsSet
    else if isValidDataOffset dataOffset (packet.length - tcpStart) then
      let headerLength := dataOffset * 4
      Except.ok
        { sourcePort := readUInt16BE packet (tcpStart + 0)
          destinationPort := readUInt16BE packet (tcpStart + 2)
          sequenceNumber := readUInt32BE packet (tcpStart + 4)
          acknowledgmentNumber := readUInt32BE packet (tcpStart + 8)
          dataOffset := dataOffset
          flags := processFlags (readUInt8 packet (tcpStart + 13))
          windowSize := readUInt16BE packet (tcpStart + 14)
          checksum := readUInt16BE packet (tcpStart + 16)
          urgentPointer := readUInt16BE packet (tcpStart + 18)
          options := if headerLength > 20 then
              processOptions ((packet.drop (tcpStart + 20)).take (headerLength - 20))
            else []
          dataPayload := packet.drop (tcpStart + headerLength) }
    else Except.error DecodeError.invalidDataOffset

/-- Helper for later proofs: below the 16-bit bound the fold loop is the
identity, whatever the fuel. -/
theorem foldCarryFuel_of_le (fuel s : Nat) (h : s ≤ 65535) :
    foldCarryFuel fuel s = s := by
  cases fuel with
  | zero => rfl
  | succ f => rw [foldCarryFuel, if_neg (by omega)]

/-- Any fuel of at least `s` computes the fixed point of the fold loop. -/
theorem foldCarryFuel_indep (f : Nat) :
    ∀ (g s : Nat), s ≤ f → s ≤ g → foldCarryFuel f s = foldCarryFuel g s := by
  induction f with
  | zero =>
    intro g s hf _
    have hs : s = 0 := by omega
    subst hs
    rw [foldCarryFuel_of_le 0 0 (by omega), foldCarryFuel_of_le g 0 (by omega)]
  | succ f ih =>
    intro g s hf hg
    by_cases hs : s ≤ 65535
    · rw [foldCarryFuel_of_le _ _ hs, foldCarryFuel_of_le _ _ hs]
    · obtain ⟨g0, rfl⟩ : ∃ g0, g = g0 + 1 := ⟨g - 1, by omega⟩
      rw [foldCarryFuel, if_pos (by omega), foldCarryFuel, if_pos (by omega)]
      exact ih g0 (s % 65536 + s / 65536) (by omega) (by omega)

theorem foldCarry_of_le {s : Nat} (h : s ≤ 65535) : foldCarry s = s :=
  foldCarryFuel_of_le s s h

/-- Unfolding equation of the fold loop above the 16-bit bound. -/
theorem foldCarry_step {s : Nat} (h : 65535 < s) :
    foldCarry s = foldCarry (s % 65536 + s / 65536) := by
  obtain ⟨s0, rfl⟩ : ∃ s0, s = s0 + 1 := ⟨s - 1, by omega⟩
  show foldCarryFuel (s0 + 1) (s0 + 1) = _
  rw [foldCarryFuel, if_pos (by omega)]
  exact foldCarryFuel_indep s0 _ _ (by omega) (by omega)

theorem foldCarry_le (s : Nat) : foldCarry s ≤ 65535 := by
  induction s using Nat.strong_induction_on with
  | _ s ih =>
    by_cases h : s ≤ 65535
    · rw [foldCarry_of_le h]; exact h
    · rw [foldCarry_step (by omega)]
      exact ih _ (by omega)

theorem foldCarry_mod (s : Nat) : foldCarry s % 65535 = s % 65535 := by
  induction s using Nat.strong_induction_on with
  | _ s ih =>
    by_cases h : s ≤ 65535
    · rw [foldCarry_of_le h]
    · rw [foldCarry_step (by omega), ih _ (by omega)]
      have hd : s = (s % 65536 + s / 65536) + (s / 65536) * 65535 := by omega
      conv_rhs => rw [hd]
      rw [Nat.add_mul_mod_self_right]

theorem foldCarry_eq_zero (s : Nat) : foldCarry s = 0 ↔ s = 0 := by
  induction s using Nat.strong_induction_on with
  | _ s ih =>
    by_cases h : s ≤ 65535
    · rw [foldCarry_of_le h]
    · rw [foldCarry_step (by omega), ih _ (by omega)]
      omega

/-- Folding the carries during the sweep agrees with folding once at the
end: the fold may be interleaved with additions. -/
theorem foldCarry_add (a b : Nat) :
    foldCarry (foldCarry a + b) = foldCarry (a + b) := by
  have h1 := foldCarry_le (foldCarry a + b)
  have h2 := foldCarry_le (a + b)
  have m1 := foldCarry_mod (foldCarry a + b)
  have m2 := foldCarry_mod (a + b)
  have ma := foldCarry_mod a
  have z1 := foldCarry_eq_zero (foldCarry a + b)
  have z2 := foldCarry_eq_zero (a + b)
  have za := foldCarry_eq_zero a
  omega

/-- The source's interleaved accumulator equals the fold of the plain word
sum (generalised over the running accumulator). -/
theorem ocsAux_foldCarry (n : Nat) :
    ∀ buf : List Nat, buf.length ≤ n →
      ∀ s : Nat, ocsAux buf (foldCarry s) = foldCarry (s + sumWords16 buf) := by
  induction n with
  | zero =>
    intro buf h s
    rcases buf with _ | ⟨b, rest⟩
    · simp [ocsAux, sumWords16]
    · simp at h
  | succ n ih =>
    intro buf h s
    rcases buf with _ | ⟨b, _ | ⟨b2, rest⟩⟩
    · simp [ocsAux, sumWords16]
    · show foldCarry (foldCarry s + b * 256) = foldCarry (s + b * 256)
      exact foldCarry_add s (b * 256)
    · show ocsAux rest (foldCarry (foldCarry s + (b * 256 + b2))) =
        foldCarry (s + ((b * 256 + b2) + sumWords16 rest))
      rw [foldCarry_add s (b * 256 + b2)]
      have hr : rest.length ≤ n := by simp at h; omega
      rw [ih rest hr (s + (b * 256 + b2)), Nat.add_assoc]

/-- The loop of `onesComplementSum` computes the fold of the plain word
sum. -/
theorem onesComplementSum_eq (buf : List Nat) :
    onesComplementSum buf = foldCarry (sumWords16 buf) := by
  have h := ocsAux_foldCarry buf.length buf le_rfl 0
  rw [foldCarry_of_le (s := 0) (by omega)] at h
  simpa [onesComplementSum] using h

/-- The padded options are always the original options followed by some
NOP (`1`) bytes. -/
theorem optPadding_eq_append (buf : List Nat) :
    optPadding buf = buf ++ List.replicate ((optPadding buf).length - buf.length) 1 := by
  by_cases h : buf.length % 4 = 0
  · have hd : optPadding buf = buf := by rw [optPadding, if_pos h]
    rw [hd]; simp
  · have hd : optPadding buf = buf ++ List.replicate (4 - buf.length % 4) 1 := by
      rw [optPadding, if_neg h]
    rw [hd, List.length_append, List.length_replicate, Nat.add_sub_cancel_left]

/-- The padded options length is a multiple of 4. -/
theorem optPadding_length_mod4 (buf : List Nat) :
    (optPadding buf).length % 4 = 0 := by
  by_cases h : buf.length % 4 = 0
  · rw [optPadding, if_pos h]; exact h
  · rw [optPadding, if_neg h, List.length_append, List.length_replicate]
    omega

/-- Claim C7: for every option byte sequence, the buffer returned by
`optPadding` has length a multiple of 4, and every appended padding byte is
a NOP byte (kind 1), never a zero byte. -/
theorem optPadding_aligned_nop_padding (buf : List Nat) :
    (optPadding buf).length % 4 = 0 ∧
      optPadding buf = buf ++ List.replicate ((optPadding buf).length - buf.length) 1 :=
  ⟨optPadding_length_mod4 buf, optPadding_eq_append buf⟩

/-- Claim C2: for every byte sequence, `checksum` (the `(~sum) & 0xFFFF` of
`onesComplementSum`) equals the Internet checksum reference value: the
one's complement, masked to 16 bits, of the sum of successive 16-bit
big-endian words — an odd final byte being the high byte of a zero-padded
word — with all carries beyond 16 bits repeatedly folded back in. -/
theorem checksum_matches_reference (buf : List Nat) :
    checksum buf = checksumSpec buf := by
  unfold checksum checksumSpec
  rw [onesComplementSum_eq]

/-- A length byte that passes `checkMalformedLength` is at least 2. -/
theorem two_le_of_not_malformed {kind len i total : Nat}
    (h : checkMalformedLength kind len i total = false) : 2 ≤ len := by
  unfold checkMalformedLength at h
  simp only [Bool.or_eq_false_iff] at h
  obtain ⟨⟨⟨⟨⟨⟨-, h2⟩, -⟩, -⟩, -⟩, -⟩, -⟩ := h
  simp only [decide_eq_false_iff_not, not_lt] at h2
  exact h2

/-- A length byte that passes `checkMalformedLength` fits inside the
remaining buffer. -/
theorem fits_of_not_malformed {kind len i total : Nat}
    (h : checkMalformedLength kind len i total = false) : i + len ≤ total := by
  unfold checkMalformedLength at h
  simp only [Bool.or_eq_false_iff] at h
  obtain ⟨⟨⟨-, h5⟩, -⟩, -⟩ := h
  simp only [decide_eq_false_iff_not, not_lt] at h5
  exact h5

/-- Unfolding: one loop iteration on the empty suffix. -/
theorem processOptionsFuel_nil (f : Nat) :
    processOptionsFuel (f + 1) [] = some (some []) := rfl

/-- Unfolding: an EndOfList byte emits `EOL` and stops. -/
theorem processOptionsFuel_eol (f : Nat) (rest1 : List Nat) :
    processOptionsFuel (f + 1) (0 :: rest1) = some (some [OptRec.short "EOL" 0]) := rfl

/-- Unfolding: a NoOp byte emits `NOP` and advances by one. -/
theorem processOptionsFuel_nop (f : Nat) (rest1 : List Nat) :
    processOptionsFuel (f + 1) (1 :: rest1) =
      (processOptionsFuel f rest1).map
        (Option.map (fun opts => OptRec.short "NOP" 1 :: opts)) := rfl

/-- Unfolding: any other kind with no length byte breaks out of the loop,
keeping the options parsed so far. -/
theorem processOptionsFuel_truncated (f kind : Nat)
    (hk0 : kind ≠ 0) (hk1 : kind ≠ 1) :
    processOptionsFuel (f + 1) [kind] = some (some []) := by
  conv_lhs => rw [processOptionsFuel]
  rw [if_neg hk0, if_neg hk1]

/-- Unfolding: any other kind with a length byte validates the length; a
malformed length aborts the whole parse, otherwise the option record is
emitted and the loop advances by `len`. -/
theorem processOptionsFuel_step (f kind len : Nat) (rest2 : List Nat)
    (hk0 : kind ≠ 0) (hk1 : kind ≠ 1) :
    processOptionsFuel (f + 1) (kind :: len :: rest2) =
      if checkMalformedLength kind len 0 (rest2.length + 2) = true then some none
      else
        (processOptionsFuel f ((kind :: len :: rest2).drop len)).map
          (Option.map (fun opts =>
            OptRec.full (optionTypeName kind) kind len (rest2.take (len - 2)) :: opts)) := by
  conv_lhs => rw [processOptionsFuel]
  rw [if_neg hk0, if_neg hk1]

/-- Any fuel exceeding the buffer length computes the same result for the
option-parsing loop. -/
theorem processOptionsFuel_indep (f : Nat) :
    ∀ (g : Nat) (buf : List Nat), buf.length < f → buf.length < g →
      processOptionsFuel f buf = processOptionsFuel g buf := by
  induction f with
  | zero => intro g buf hf _; omega
  | succ f ih =>
    intro g buf hf hg
    obtain ⟨g0, rfl⟩ : ∃ g0, g = g0 + 1 := ⟨g - 1, by omega⟩
    rcases buf with _ | ⟨kind, rest1⟩
    · rfl
    · simp only [List.length_cons] at hf hg
      by_cases hk0 : kind = 0
      · subst hk0; rw [processOptionsFuel_eol, processOptionsFuel_eol]
      · by_cases hk1 : kind = 1
        · subst hk1
          rw [processOptionsFuel_nop, processOptionsFuel_nop,
            ih g0 rest1 (by omega) (by omega)]
        · rcases rest1 with _ | ⟨len, rest2⟩
          · rw [processOptionsFuel_truncated f kind hk0 hk1,
              processOptionsFuel_truncated g0 kind hk0 hk1]
          · simp only [List.length_cons] at hf hg
            rw [processOptionsFuel_step f kind len rest2 hk0 hk1,
              processOptionsFuel_step g0 kind len rest2 hk0 hk1]
            by_cases hm : checkMalformedLength kind len 0 (rest2.length + 2) = true
            · rw [if_pos hm, if_pos hm]
            · have h2 : 2 ≤ len :=
                two_le_of_not_malformed (Bool.not_eq_true _ ▸ hm :)
              rw [if_neg hm, if_neg hm,
                ih g0 _ (by simp [List.length_drop]; omega)
                  (by simp [List.length_drop]; omega)]

/-- With fuel exceeding the buffer length the option-parsing loop never
exhausts its fuel. -/
theorem processOptionsFuel_isSome (f : Nat) :
    ∀ buf : List Nat, buf.length < f → (processOptionsFuel f buf).isSome = true := by
  induction f with
  | zero => intro buf hf; omega
  | succ f ih =>
    intro buf hf
    rcases buf with _ | ⟨kind, rest1⟩
    · rfl
    · simp only [List.length_cons] at hf
      by_cases hk0 : kind = 0
      · subst hk0; rw [processOptionsFuel_eol]; rfl
      · by_cases hk1 : kind = 1
        · subst hk1
          rw [processOptionsFuel_nop, Option.isSome_map']
          exact ih rest1 (by omega)
        · rcases rest1 with _ | ⟨len, rest2⟩
          · rw [processOptionsFuel_truncated f kind hk0 hk1]; rfl
          · simp only [List.length_cons] at hf
            rw [processOptionsFuel_step f kind len rest2 hk0 hk1]
            by_cases hm : checkMalformedLength kind len 0 (rest2.length + 2) = true
            · rw [if_pos hm]; rfl
            · have h2 : 2 ≤ len :=
                two_le_of_not_malformed (Bool.not_eq_true _ ▸ hm :)
              rw [if_neg hm, Option.isSome_map']
              exact ih _ (by simp [List.length_drop]; omega)

/-- Claim C10: the option-parsing loop of `processOptions` terminates on
every input: one fuel unit per iteration, any fuel beyond the buffer
length is never exhausted (each iteration that does not end the parse
strictly advances the cursor, by 1 for NoOp and by the validated length of
at least 2 otherwise), and the result does not depend on the fuel. -/
theorem processOptions_terminates (optionsArray : List Nat) (f g : Nat)
    (hf : optionsArray.length < f) (hg : optionsArray.length < g) :
    processOptionsFuel f optionsArray = processOptionsFuel g optionsArray ∧
      (processOptionsFuel f optionsArray).isSome = true :=
  ⟨processOptionsFuel_indep f g optionsArray hf hg,
    processOptionsFuel_isSome f optionsArray hf⟩

/-- Witness for claim C10 at a concrete buffer and two concrete fuels. -/
theorem processOptions_terminates_witness :
    processOptionsFuel 5 [1, 2, 4, 0] = processOptionsFuel 11 [1, 2, 4, 0] ∧
      (processOptionsFuel 5 [1, 2, 4, 0]).isSome = true :=
  processOptions_terminates [1, 2, 4, 0] 5 11 (by decide) (by decide)

/-- The flag byte fits in 8 bits. -/
theorem flagBits_lt (f : TcpFlags) : flagBits f < 256 := by
  obtain ⟨a, b, c, d, e, g, h, i⟩ := f
  cases a <;> cases b <;> cases c <;> cases d <;> cases e <;> cases g <;>
    cases h <;> cases i <;> decide

/-- The `dataOffset << 12 | flagBits` word of `Encode` is the plain sum of
its two disjoint parts. -/
theorem shiftLeft12_lor_eq_add (d fb : Nat) (hfb : fb < 4096) :
    (d <<< 12) ||| fb = d * 4096 + fb := by
  have h2 : fb < 2 ^ 12 := hfb
  have h := Nat.mul_add_lt_is_or h2 d
  rw [Nat.shiftLeft_eq, Nat.mul_comm d (2 ^ 12), ← h]

/-- Byte 12 written by `Encode` is `dataOffset * 16`, whose reserved bit 2
is clear. -/
theorem mul16_and4 (k : Nat) : 16 * k &&& 4 = 0 := by
  have h := Nat.and_two_pow (16 * k) 2
  have ht : (16 * k).testBit 2 = false := by
    rw [Nat.testBit_to_div_mod]
    simp only [decide_eq_false_iff_not]
    omega
  rw [show (4 : Nat) = 2 ^ 2 from rfl, h, ht]
  rfl

/-- Claim C4 (amended): `processOptions` signals no failure value.  On an
option of kind other than 0 and 1 with no length byte it stops and returns
the options parsed so far (here: the NoOp already parsed), and on a
malformed option it returns the empty list, discarding every previously
parsed option — no `TruncatedOption`/`MalformedOption` error value exists
in the code. -/
theorem processOptions_partial_or_empty (kind len : Nat) (rest : List Nat)
    (hk : 2 ≤ kind) :
    processOptions [1, kind] = [OptRec.short "NOP" 1] ∧
      (checkMalformedLength kind len 0 (rest.length + 2) = true →
        processOptions (1 :: kind :: len :: rest) = []) := by
  constructor
  · have h1 : processOptionsFuel 3 [1, kind] = some (some [OptRec.short "NOP" 1]) := by
      rw [show (3 : Nat) = 2 + 1 from rfl, processOptionsFuel_nop,
        processOptionsFuel_truncated 1 kind (by omega) (by omega)]
      rfl
    have hl : ([1, kind] : List Nat).length + 1 = 3 := by simp
    unfold processOptions
    rw [hl, h1]
  · intro hm
    have h2 : processOptionsFuel (rest.length + 2 + 1) (kind :: len :: rest) = some none := by
      rw [processOptionsFuel_step (rest.length + 2) kind len rest (by omega) (by omega),
        if_pos hm]
    have h3 : processOptionsFuel (rest.length + 4) (1 :: kind :: len :: rest) = some none := by
      rw [show rest.length + 4 = (rest.length + 2 + 1) + 1 from rfl, processOptionsFuel_nop, h2]
      rfl
    have hl : (1 :: kind :: len :: rest).length + 1 = rest.length + 4 := by simp
    unfold processOptions
    rw [hl, h3]

/-- Witness for claim C4's amended theorem: kind 2 (MSS) truncated after a
NoOp, and the same list extended with the malformed length byte 1. -/
theorem processOptions_partial_or_empty_witness :
    processOptions [1, 2] = [OptRec.short "NOP" 1] ∧
      (checkMalformedLength 2 1 0 2 = true → processOptions (1 :: 2 :: 1 :: []) = []) :=
  processOptions_partial_or_empty 2 1 [] (by decide)

/-- Counterexample to claim C4 as stated: on `[1, 2]` — a NoOp followed by
an MSS kind byte with no length byte — `processOptions` does not fail with
`TruncatedOption`; it returns the partial option list parsed so far. -/
theorem processOptions_truncated_partial_cex :
    processOptions [1, 2] = [OptRec.short "NOP" 1] := by decide

/-- Claim C9 (amended): `checkMalformedLength` accepts a SACK (kind 5)
length byte exactly when `(length - 2) % 8 = 0`, `1 ≤ (length - 2) / 8 ≤ 4`
(that is, one to four blocks — not two to four), and the option fits the
remaining buffer; in particular a kind-5 option with length 11 aborts the
parse for any tail. -/
theorem sack_length_validation (len remaining : Nat) (rest : List Nat) :
    (checkMalformedLength 5 len 0 remaining = false ↔
      ((len - 2) % 8 = 0 ∧ 1 ≤ (len - 2) / 8 ∧ (len - 2) / 8 ≤ 4 ∧ len ≤ remaining)) ∧
      processOptions (5 :: 11 :: rest) = [] := by
  constructor
  · have hb : checkMalformedLength 5 len 0 remaining = false ↔
        ¬(checkMalformedLength 5 len 0 remaining = true) := by
      cases checkMalformedLength 5 len 0 remaining <;> simp
    rw [hb]
    simp [checkMalformedLength, optionTypeKnown, minLengthOf, maxLengthOf]
    omega
  · have hm : checkMalformedLength 5 11 0 (rest.length + 2) = true := by
      simp [checkMalformedLength]
    have h2 : processOptionsFuel (rest.length + 2 + 1) (5 :: 11 :: rest) = some none := by
      rw [processOptionsFuel_step (rest.length + 2) 5 11 rest (by omega) (by omega), if_pos hm]
    have hl : (5 :: 11 :: rest).length + 1 = rest.length + 2 + 1 := by simp
    unfold processOptions
    rw [hl, h2]

/-- Counterexample to claim C9 as stated: a kind-5 SACK option with one
block (length 10, so `(length-2)/8 = 1 < 2`) is accepted by
`processOptions`, not rejected. -/
theorem sack_one_block_accepted_cex :
    processOptions [5, 10, 0, 0, 0, 0, 0, 0, 0, 0] =
      [OptRec.full "SACK" 5 10 [0, 0, 0, 0, 0, 0, 0, 0]] := by decide

/-- Claim C6 (amended): `optPadding` — the options-encoding step cited by
the claim — performs no size check and never fails; nevertheless the
padded options of every segment that `Encode` successfully returns are at
most 40 bytes, because the `writeUInt16BE` of the offset-and-flags word
fails its range check whenever the data offset would exceed 15. -/
theorem encode_bounds_padded_options (srcIp destIp : List Nat)
    (srcPort destPort seqNumber ackNumber : Nat) (flags : TcpFlags)
    (windowSize urgentPointer : Nat) (options data pkt : List Nat)
    (h : Encode srcIp destIp srcPort destPort seqNumber ackNumber flags windowSize
      urgentPointer options data = Except.ok pkt) :
    (optPadding options).length ≤ 40 := by
  simp only [Encode] at h
  split_ifs at h with hip hrange
  · have hof : (((20 + (optPadding options).length) / 4) <<< 12) ||| flagBits flags ≤ 65535 :=
      hrange.2.2.2.2.1
    have hfb := flagBits_lt flags
    rw [shiftLeft12_lor_eq_add _ _ (by omega)] at hof
    have hmod := optPadding_length_mod4 options
    omega

/-- Witness for claim C6's amended theorem: a successful encode of an
empty option list. -/
theorem encode_bounds_padded_options_witness :
    (optPadding []).length ≤ 40 :=
  encode_bounds_padded_options [10, 0, 0, 1] [10, 0, 0, 2] 1234 80 1000 0
    ⟨false, true, false, false, false, false, false, false⟩ 65535 0 [] []
    [4, 210, 0, 80, 0, 0, 3, 232, 0, 0, 0, 0, 80, 2, 255, 255, 146, 214, 0, 0]
    (by decide)

/-- Counterexample to claim C6 as stated: for 44 NoOp bytes — a padded
encoding of 44 > 40 bytes — `optPadding` does not fail with
`OptionsTooLarge`; it returns the oversized buffer unchanged. -/
theorem optPadding_no_size_check_cex :
    optPadding (List.replicate 44 1) = List.replicate 44 1 ∧
      (optPadding (List.replicate 44 1)).length = 44 := by decide

/-- Claim C8 (amended): the second version's decoder rejects a packet with
`ReservedBitsSet` exactly when one of the three reserved bits (mask `0x0E`
of byte 12) is set, as the claim states; the first version's decoder tests
only bit 2 (mask `0x04`), so it rejects `0b111` but accepts reserved
patterns with bit 2 clear. -/
theorem decode_reserved_bits (packet : List Nat) (skipIPHeader : Bool)
    (hlen : (if skipIPHeader then 20 else 0) + 20 ≤ packet.length) :
    (DecodeV2 packet skipIPHeader = Except.error DecodeError.reservedBitsSet ↔
      readUInt8 packet ((if skipIPHeader then 20 else 0) + 12) &&& 14 ≠ 0) ∧
    (Decode packet skipIPHeader = Except.error DecodeError.reservedBitsSet ↔
      readUInt8 packet ((if skipIPHeader then 20 else 0) + 12) &&& 4 ≠ 0) := by
  constructor
  · simp only [DecodeV2]
    rw [if_neg (by omega)]
    by_cases hr : readUInt8 packet ((if skipIPHeader then 20 else 0) + 12) &&& 14 ≠ 0
    · simp [hr]
    · rw [if_neg hr]
      simp only [hr, iff_false]
      split_ifs <;> simp
  · simp only [Decode]
    rw [if_neg (by omega)]
    by_cases hr : readUInt8 packet ((if skipIPHeader then 20 else 0) + 12) &&& 4 ≠ 0
    · simp [hr]
    · rw [if_neg hr]
      simp only [hr, iff_false]
      split_ifs <;> simp

/-- Witness for claim C8's amended theorem: a 20-byte packet whose byte 12
is `0x5E` (data offset 5, reserved bits 0b111). -/
theorem decode_reserved_bits_witness :
    (DecodeV2 [0, 0, 0, 0, 0, 0, 0, 0, 0, 0, 0, 0, 94, 0, 0, 0, 0, 0, 0, 0] false =
        Except.error DecodeError.reservedBitsSet ↔
      readUInt8 [0, 0, 0, 0, 0, 0, 0, 0, 0, 0, 0, 0, 94, 0, 0, 0, 0, 0, 0, 0]
        ((if false then 20 else 0) + 12) &&& 14 ≠ 0) ∧
    (Decode [0, 0, 0, 0, 0, 0, 0, 0, 0, 0, 0, 0, 94, 0, 0, 0, 0, 0, 0, 0] false =
        Except.error DecodeError.reservedBitsSet ↔
      readUInt8 [0, 0, 0, 0, 0, 0, 0, 0, 0, 0, 0, 0, 94, 0, 0, 0, 0, 0, 0, 0]
        ((if false then 20 else 0) + 12) &&& 4 ≠ 0) :=
  decode_reserved_bits [0, 0, 0, 0, 0, 0, 0, 0, 0, 0, 0, 0, 94, 0, 0, 0, 0, 0, 0, 0]
    false (by decide)

/-- Counterexample to claim C8 as stated: byte 12 equal to `0x5A` sets
reserved bits 1 and 3 (low nibble 0b1010), yet the first version's
`Decode` accepts the packet and returns a full segment instead of failing
with `ReservedBitsSet`. -/
theorem decode_reserved_accepted_cex :
    Decode [0, 0, 0, 0, 0, 0, 0, 0, 0, 0, 0, 0, 90, 0, 0, 0, 0, 0, 0, 0] false =
      Except.ok ⟨0, 0, 0, 0, 5, [], 0, 0, 0, [], []⟩ := by decide

/-- Claim C5 (amended): once the fixed-header checks pass, `Decode` always
returns a full `TcpSegment`; an options region that fails option parsing is
not propagated as a `MalformedOptions` error but masked: the segment's
`options` field is `processOptions` of the options region, which is `[]`
when the parse aborts. -/
theorem decode_masks_malformed_options (packet : List Nat) (dataOffset : Nat)
    (hd : readUInt8 packet 12 >>> 4 &&& 15 = dataOffset)
    (hlen : 20 ≤ packet.length)
    (hres : readUInt8 packet 12 &&& 4 = 0)
    (hoff : isValidDataOffset dataOffset packet.length = true) :
    Decode packet false = Except.ok
      { sourcePort := readUInt16BE packet 0
        destinationPort := readUInt16BE packet 2
        sequenceNumber := readUInt32BE packet 4
        acknowledgmentNumber := readUInt32BE packet 8
        dataOffset := dataOffset
        flags := processFlags (readUInt8 packet 13)
        windowSize := readUInt16BE packet 14
        checksum := readUInt16BE packet 16
        urgentPointer := readUInt16BE packet 18
        options := processOptions ((packet.drop 20).take (dataOffset * 4 - 20))
        dataPayload := packet.drop (dataOffset * 4) } := by
  have h0 : (if (false : Bool) = true then 20 else 0) = 0 := rfl
  simp only [Decode, h0, Nat.zero_add, Nat.sub_zero, hd, hres]
  rw [if_neg (by omega), if_neg (by omega), if_pos hoff]
  by_cases h20 : dataOffset * 4 > 20
  · rw [if_pos h20]
  · rw [if_neg h20, show dataOffset * 4 - 20 = 0 from by omega]
    simp [processOptions, processOptionsFuel]

/-- Witness for claim C5's amended theorem: a 24-byte packet whose options
region `[5, 11, 0, 0]` is a malformed SACK option; decode succeeds and the
failed option parse is masked as `options = []`. -/
theorem decode_masks_malformed_options_witness :
    Decode [0, 80, 0, 80, 0, 0, 0, 1, 0, 0, 0, 0, 96, 0, 255, 255, 0, 0, 0, 0, 5, 11, 0, 0]
        false = Except.ok
      { sourcePort := readUInt16BE [0, 80, 0, 80, 0, 0, 0, 1, 0, 0, 0, 0, 96, 0, 255, 255, 0, 0, 0, 0, 5, 11, 0, 0] 0
        destinationPort := readUInt16BE [0, 80, 0, 80, 0, 0, 0, 1, 0, 0, 0, 0, 96, 0, 255, 255, 0, 0, 0, 0, 5, 11, 0, 0] 2
        sequenceNumber := readUInt32BE [0, 80, 0, 80, 0, 0, 0, 1, 0, 0, 0, 0, 96, 0, 255, 255, 0, 0, 0, 0, 5, 11, 0, 0] 4
        acknowledgmentNumber := readUInt32BE [0, 80, 0, 80, 0, 0, 0, 1, 0, 0, 0, 0, 96, 0, 255, 255, 0, 0, 0, 0, 5, 11, 0, 0] 8
        dataOffset := 6
        flags := processFlags (readUInt8 [0, 80, 0, 80, 0, 0, 0, 1, 0, 0, 0, 0, 96, 0, 255, 255, 0, 0, 0, 0, 5, 11, 0, 0] 13)
        windowSize := readUInt16BE [0, 80, 0, 80, 0, 0, 0, 1, 0, 0, 0, 0, 96, 0, 255, 255, 0, 0, 0, 0, 5, 11, 0, 0] 14
        checksum := readUInt16BE [0, 80, 0, 80, 0, 0, 0, 1, 0, 0, 0, 0, 96, 0, 255, 255, 0, 0, 0, 0, 5, 11, 0, 0] 16
        urgentPointer := readUInt16BE [0, 80, 0, 80, 0, 0, 0, 1, 0, 0, 0, 0, 96, 0, 255, 255, 0, 0, 0, 0, 5, 11, 0, 0] 18
        options := processOptions
          (([0, 80, 0, 80, 0, 0, 0, 1, 0, 0, 0, 0, 96, 0, 255, 255, 0, 0, 0, 0, 5, 11, 0, 0].drop 20).take (6 * 4 - 20))
        dataPayload := [0, 80, 0, 80, 0, 0, 0, 1, 0, 0, 0, 0, 96, 0, 255, 255, 0, 0, 0, 0, 5, 11, 0, 0].drop (6 * 4) } :=
  decode_masks_malformed_options
    [0, 80, 0, 80, 0, 0, 0, 1, 0, 0, 0, 0, 96, 0, 255, 255, 0, 0, 0, 0, 5, 11, 0, 0]
    6 (by decide) (by decide) (by decide) (by decide)

/-- Counterexample to claim C5 as stated: a 24-byte packet whose options
region `[5, 11, 0, 0]` fails option decoding, yet `Decode` does not fail
with `MalformedOptions` — it returns a full `TcpSegment` whose options list
is empty. -/
theorem decode_malformed_options_ok_cex :
    Decode [0, 80, 0, 80, 0, 0, 0, 1, 0, 0, 0, 0, 96, 0, 255, 255, 0, 0, 0, 0, 5, 11, 0, 0]
        false = Except.ok ⟨80, 80, 1, 0, 6, [], 65535, 0, 0, [], []⟩ := by decide

/-- In an encoded segment the checksum bytes 16-17 read back as the written
value, and zeroing the checksum field of the segment recovers exactly the
header-with-zero-checksum (plus payload) that the checksum was computed
over. -/
theorem encode_checksum_bytes (sp dp sq ak ofl win urg ck : Nat) (po data : List Nat) :
    readUInt16BE (writeU16 sp ++ writeU16 dp ++ writeU32 sq ++ writeU32 ak ++
      writeU16 ofl ++ writeU16 win ++ writeU16 ck ++ writeU16 urg ++ po ++ data) 16 = ck ∧
    zeroChecksumField (writeU16 sp ++ writeU16 dp ++ writeU32 sq ++ writeU32 ak ++
        writeU16 ofl ++ writeU16 win ++ writeU16 ck ++ writeU16 urg ++ po ++ data) =
      (writeU16 sp ++ writeU16 dp ++ writeU32 sq ++ writeU32 ak ++ writeU16 ofl ++
        writeU16 win ++ writeU16 0 ++ writeU16 urg ++ po) ++ data := by
  constructor
  · show (writeU16 sp ++ writeU16 dp ++ writeU32 sq ++ writeU32 ak ++ writeU16 ofl ++
      writeU16 win ++ writeU16 ck ++ writeU16 urg ++ po ++ data).getD 16 0 * 256 +
      (writeU16 sp ++ writeU16 dp ++ writeU32 sq ++ writeU32 ak ++ writeU16 ofl ++
      writeU16 win ++ writeU16 ck ++ writeU16 urg ++ po ++ data).getD 17 0 = ck
    rw [show (writeU16 sp ++ writeU16 dp ++ writeU32 sq ++ writeU32 ak ++ writeU16 ofl ++
      writeU16 win ++ writeU16 ck ++ writeU16 urg ++ po ++ data).getD 16 0 = ck / 256 from rfl]
    rw [show (writeU16 sp ++ writeU16 dp ++ writeU32 sq ++ writeU32 ak ++ writeU16 ofl ++
      writeU16 win ++ writeU16 ck ++ writeU16 urg ++ po ++ data).getD 17 0 = ck % 256 from rfl]
    omega
  · simp [zeroChecksumField, writeU16, writeU32]

/-- Claim C3 (amended): `tcpCheckSum` checksums the 12-byte pseudo-header
followed by the segment exactly as given — it does not zero the segment's
checksum field — so it coincides with the spec's pseudo-header checksum
precisely for segments whose checksum field is already zero; and `Encode`
stores at bytes 16-17 exactly `tcpCheckSum` (protocol 6) of the
zero-checksum header concatenated with the payload. -/
theorem tcpCheckSum_pseudoHeader (srcIp destIp seg : List Nat)
    (srcPort destPort seqNumber ackNumber : Nat) (flags : TcpFlags)
    (windowSize urgentPointer : Nat) (options data pkt : List Nat)
    (hz : zeroChecksumField seg = seg)
    (henc : Encode srcIp destIp srcPort destPort seqNumber ackNumber flags windowSize
      urgentPointer options data = Except.ok pkt) :
    tcpCheckSum srcIp destIp seg = pseudoHeaderChecksumSpec srcIp destIp 6 seg ∧
      readUInt16BE pkt 16 = tcpCheckSum srcIp destIp (zeroChecksumField pkt) := by
  constructor
  · unfold tcpCheckSum pseudoHeaderChecksumSpec
    rw [hz]
  · simp only [Encode] at henc
    split_ifs at henc with hip hrange
    simp only [Except.ok.injEq] at henc
    subst henc
    obtain ⟨hread, hzero⟩ := encode_checksum_bytes srcPort destPort seqNumber ackNumber
      ((((20 + (optPadding options).length) / 4) <<< 12) ||| flagBits flags) windowSize
      urgentPointer
      (tcpCheckSum srcIp destIp
        ((writeU16 srcPort ++ writeU16 destPort ++ writeU32 seqNumber ++ writeU32 ackNumber ++
          writeU16 ((((20 + (optPadding options).length) / 4) <<< 12) ||| flagBits flags) ++
          writeU16 windowSize ++ writeU16 0 ++ writeU16 urgentPointer ++
          optPadding options) ++ data))
      (optPadding options) data
    rw [hzero]
    exact hread

/-- Counterexample to claim C3 as stated: a 20-byte segment whose checksum
field holds 1 — `tcpCheckSum` does not zero the field, so its result
differs from the spec's checksum over the zeroed segment. -/
theorem tcpCheckSum_no_zeroing_cex :
    tcpCheckSum [0, 0, 0, 0] [0, 0, 0, 0] (List.replicate 16 0 ++ [0, 1, 0, 0]) ≠
      pseudoHeaderChecksumSpec [0, 0, 0, 0] [0, 0, 0, 0] 6
        (List.replicate 16 0 ++ [0, 1, 0, 0]) := by decide

/-- Witness for claim C3's amended theorem: the all-zero 20-byte segment
and a concrete successful encode. -/
theorem tcpCheckSum_pseudoHeader_witness :
    tcpCheckSum [10, 0, 0, 1] [10, 0, 0, 2] (List.replicate 20 0) =
      pseudoHeaderChecksumSpec [10, 0, 0, 1] [10, 0, 0, 2] 6 (List.replicate 20 0) ∧
    readUInt16BE [4, 210, 0, 80, 0, 0, 3, 232, 0, 0, 0, 0, 80, 2, 255, 255, 146, 214, 0, 0]
        16 = tcpCheckSum [10, 0, 0, 1] [10, 0, 0, 2]
      (zeroChecksumField
        [4, 210, 0, 80, 0, 0, 3, 232, 0, 0, 0, 0, 80, 2, 255, 255, 146, 214, 0, 0]) :=
  tcpCheckSum_pseudoHeader [10, 0, 0, 1] [10, 0, 0, 2] (List.replicate 20 0)
    1234 80 1000 0 ⟨false, true, false, false, false, false, false, false⟩ 65535 0 [] []
    [4, 210, 0, 80, 0, 0, 3, 232, 0, 0, 0, 0, 80, 2, 255, 255, 146, 214, 0, 0]
    (by decide) (by decide)

/-- The checksum value is 16-bit by construction. -/
theorem checksum_le (buf : List Nat) : checksum buf ≤ 65535 := by
  unfold checksum
  omega

/-- `processFlags` of the flag byte built by `Encode` recovers exactly the
names of the set flags. -/
theorem processFlags_flagBits (f : TcpFlags) :
    processFlags (flagBits f) = flagNames f := by
  obtain ⟨a, b, c, d, e, g, h, i⟩ := f
  cases a <;> cases b <;> cases c <;> cases d <;> cases e <;> cases g <;>
    cases h <;> cases i <;> decide

/-- Decoding a well-formed encoded segment: the 20-byte header laid out by
`Encode` (offset-and-flags word `d * 4096 + fb`), followed by the padded
options and the payload, decodes to its constituent fields. -/
theorem decode_encoded (sp dp sq ak d fb win ck urg : Nat) (po data P : List Nat)
    (hP : P = writeU16 sp ++ writeU16 dp ++ writeU32 sq ++ writeU32 ak ++
      writeU16 (d * 4096 + fb) ++ writeU16 win ++ writeU16 ck ++ writeU16 urg ++ po ++ data)
    (hfb : fb < 256)
    (hd5 : 5 ≤ d) (hd15 : d ≤ 15) (hpo : po.length = d * 4 - 20) :
    Decode P false = Except.ok
      { sourcePort := sp, destinationPort := dp, sequenceNumber := sq,
        acknowledgmentNumber := ak, dataOffset := d, flags := processFlags fb,
        windowSize := win, checksum := ck, urgentPointer := urg,
        options := processOptions po, dataPayload := data } := by
  have hlen : P.length = 20 + (po.length + data.length) := by
    rw [hP]; simp [writeU16, writeU32]; omega
  have g12 : readUInt8 P 12 = (d * 4096 + fb) / 256 := by rw [hP]; rfl
  have hb12 : readUInt8 P 12 = 16 * d := by rw [g12]; omega
  have g13 : readUInt8 P 13 = (d * 4096 + fb) % 256 := by rw [hP]; rfl
  have hb13 : readUInt8 P 13 = fb := by rw [g13]; omega
  have hdoffb : (16 * d) >>> 4 &&& 15 = d := by
    rw [Nat.shiftRight_eq_div_pow, show (15 : Nat) = 2 ^ 4 - 1 from rfl,
      Nat.and_pow_two_sub_one_eq_mod]
    omega
  have h0 : (if (false : Bool) = true then 20 else 0) = 0 := rfl
  simp only [Decode, h0, Nat.zero_add, Nat.sub_zero]
  rw [if_neg (by omega), hb12, hb13, hdoffb, mul16_and4, if_neg (by omega),
    if_pos (show isValidDataOffset d P.length = true by simp [isValidDataOffset]; omega)]
  simp only [Except.ok.injEq, TcpSegment.mk.injEq]
  have hdrop : P.drop 20 = po ++ data := by rw [hP]; rfl
  refine ⟨?_, ?_, ?_, ?_, trivial, trivial, ?_, ?_, ?_, ?_, ?_⟩
  · simp only [readUInt16BE, readUInt8]
    rw [show P.getD 0 0 = sp / 256 from by rw [hP]; rfl,
      show P.getD (0 + 1) 0 = sp % 256 from by rw [hP]; rfl]
    omega
  · simp only [readUInt16BE, readUInt8]
    rw [show P.getD 2 0 = dp / 256 from by rw [hP]; rfl,
      show P.getD (2 + 1) 0 = dp % 256 from by rw [hP]; rfl]
    omega
  · simp only [readUInt32BE, readUInt8]
    rw [show P.getD 4 0 = sq / 16777216 from by rw [hP]; rfl,
      show P.getD (4 + 1) 0 = sq / 65536 % 256 from by rw [hP]; rfl,
      show P.getD (4 + 2) 0 = sq / 256 % 256 from by rw [hP]; rfl,
      show P.getD (4 + 3) 0 = sq % 256 from by rw [hP]; rfl]
    omega
  · simp only [readUInt32BE, readUInt8]
    rw [show P.getD 8 0 = ak / 16777216 from by rw [hP]; rfl,
      show P.getD (8 + 1) 0 = ak / 65536 % 256 from by rw [hP]; rfl,
      show P.getD (8 + 2) 0 = ak / 256 % 256 from by rw [hP]; rfl,
      show P.getD (8 + 3) 0 = ak % 256 from by rw [hP]; rfl]
    omega
  · simp only [readUInt16BE, readUInt8]
    rw [show P.getD 14 0 = win / 256 from by rw [hP]; rfl,
      show P.getD (14 + 1) 0 = win % 256 from by rw [hP]; rfl]
    omega
  · simp only [readUInt16BE, readUInt8]
    rw [show P.getD 16 0 = ck / 256 from by rw [hP]; rfl,
      show P.getD (16 + 1) 0 = ck % 256 from by rw [hP]; rfl]
    omega
  · simp only [readUInt16BE, readUInt8]
    rw [show P.getD 18 0 = urg / 256 from by rw [hP]; rfl,
      show P.getD (18 + 1) 0 = urg % 256 from by rw [hP]; rfl]
    omega
  · by_cases hgt : d * 4 > 20
    · rw [if_pos hgt, hdrop, show d * 4 - 20 = po.length from by omega, List.take_left]
    · rw [if_neg hgt]
      have hnil : po = [] := List.eq_nil_of_length_eq_zero (by omega)
      rw [hnil]
      rfl
  · rw [show d * 4 = 20 + po.length from by omega, ← List.drop_drop, hdrop, List.drop_left]

/-- Claim C1 (amended): decoding an encoded segment (no IP header) returns
the original source and destination ports, sequence and acknowledgment
numbers, flag set, window size, urgent pointer and payload exactly, with
the checksum excluded from the equality; the options field comes back as
the parse of the padded options region `optPadding options` — the original
options followed by their NOP padding — rather than of the options exactly
as given. -/
theorem encode_decode_roundtrip (srcIp destIp : List Nat)
    (srcPort destPort seqNumber ackNumber : Nat) (flags : TcpFlags)
    (windowSize urgentPointer : Nat) (options data pkt : List Nat)
    (henc : Encode srcIp destIp srcPort destPort seqNumber ackNumber flags windowSize
      urgentPointer options data = Except.ok pkt) :
    (Decode pkt false).map (fun seg =>
      (seg.sourcePort, seg.destinationPort, seg.sequenceNumber, seg.acknowledgmentNumber,
        seg.flags, seg.windowSize, seg.urgentPointer, seg.options, seg.dataPayload)) =
      Except.ok (srcPort, destPort, seqNumber, ackNumber, flagNames flags, windowSize,
        urgentPointer, processOptions (optPadding options), data) := by
  simp only [Encode] at henc
  split_ifs at henc with hip hrange
  obtain ⟨h1, h2, h3, h4, h5, h6, h7, h8⟩ := hrange
  simp only [Except.ok.injEq] at henc
  subst henc
  have hmod := optPadding_length_mod4 options
  have hfb := flagBits_lt flags
  have hofl := shiftLeft12_lor_eq_add ((20 + (optPadding options).length) / 4)
    (flagBits flags) (by omega)
  rw [hofl] at h5
  rw [hofl]
  have hd15 : (20 + (optPadding options).length) / 4 ≤ 15 := by omega
  rw [decode_encoded srcPort destPort seqNumber ackNumber
    ((20 + (optPadding options).length) / 4) (flagBits flags) windowSize _ urgentPointer
    (optPadding options) data _ rfl hfb (by omega) hd15 (by omega)]
  simp [Except.map, processFlags_flagBits]

/-- Witness for claim C1's amended theorem: a concrete encode of a SYN
segment with a window-scale option (3 bytes, padded with one NOP). -/
theorem encode_decode_roundtrip_witness :
    (Decode [4, 210, 0, 80, 0, 0, 3, 232, 0, 0, 0, 0, 96, 2, 255, 255, 120, 206, 0, 0,
        3, 3, 7, 1] false).map (fun seg =>
      (seg.sourcePort, seg.destinationPort, seg.sequenceNumber, seg.acknowledgmentNumber,
        seg.flags, seg.windowSize, seg.urgentPointer, seg.options, seg.dataPayload)) =
      Except.ok (1234, 80, 1000, 0,
        flagNames ⟨false, true, false, false, false, false, false, false⟩, 65535,
        0, processOptions (optPadding [3, 3, 7]), []) :=
  encode_decode_roundtrip [10, 0, 0, 1] [10, 0, 0, 2] 1234 80 1000 0
    ⟨false, true, false, false, false, false, false, false⟩ 65535 0 [3, 3, 7] []
    [4, 210, 0, 80, 0, 0, 3, 232, 0, 0, 0, 0, 96, 2, 255, 255, 120, 206, 0, 0, 3, 3, 7, 1]
    (by decide)

/-- Counterexample to claim C1 as stated: encoding a 3-byte window-scale
option and decoding the result yields the original option plus the NOP
padding byte appended by `optPadding` — not exactly the original options. -/
theorem encode_decode_options_cex :
    ((Encode [10, 0, 0, 1] [10, 0, 0, 2] 1234 80 1000 0
        ⟨false, true, false, false, false, false, false, false⟩ 65535 0 [3, 3, 7]
        []).toOption.bind (fun pkt => (Decode pkt false).toOption.map
          (fun seg => seg.options))) =
      some [OptRec.full "WS" 3 3 [7], OptRec.short "NOP" 1] ∧
    processOptions [3, 3, 7] = [OptRec.full "WS" 3 3 [7]] ∧
    some [OptRec.full "WS" 3 3 [7], OptRec.short "NOP" 1] ≠
      some (processOptions [3, 3, 7]) := by decide
